import Mathlib

/-
Verification of the `bench` HTTP load generator (src/bench.go, src/main.go)
against its natural-language specification.

The Go program is shallowly embedded below.  Machine integers are modelled
as `Nat`; the `uint32` statistics counters wrap at `2 ^ 32`, which the
embedding makes explicit (`u32inc`).  Durations (`time.Duration`) are
nanosecond counts modelled as `Nat` (as stored by the program they are
non-negative; the one signed subtraction, in `PrintResult`, is modelled on
`Int`).  The HTTP transport (`http.Client.Do`) is a collaborator: a worker
receives its per-iteration outcomes from a transport function, each outcome
being a status code or an error value together with the measured latency.
-/

namespace LoadBench

/-- Model of the error values an `http.Client.Do` call can yield.
`handlerTimeout` is the sentinel `http.ErrHandlerTimeout` — per the net/http
documentation it is returned on `ResponseWriter` writes by *server-side*
handlers that timed out.  `urlTimeout` is the `*url.Error` with
`Timeout() = true` that `Client.Do` actually returns when the configured
`Client.Timeout` elapses; it is a distinct value, never equal to
`http.ErrHandlerTimeout`.  `other` stands for any other transport error
(connection refused, DNS failure, ...). -/
inductive DoError where
  | handlerTimeout
  | urlTimeout
  | other
deriving DecidableEq, Repr

/-- Result of one `b.client.Do(req)` call: a response carrying a status
code, or an error. -/
inductive DoResult where
  | resp (statusCode : Nat)
  | err (e : DoError)
deriving DecidableEq, Repr

/-- One attempt's observable outcome: the transport result together with the
latency (`time.Since(start)`, in nanoseconds) measured for the attempt. -/
abbrev Attempt := DoResult × Nat

/-- The `stats` struct of src/bench.go (counter and extremum fields; the
wall-clock fields `LaunchTime`/`Runtime` are modelled as explicit elapsed-time
parameters of `PrintResult`, and `RequestsPerSecond`/`DelayAvg` are only ever
computed at report time, so they live in the `Report` produced there).
All fields are zero-initialised in Go. -/
structure stats where
  RequestsTotal : Nat := 0
  RequestsSuccess : Nat := 0
  RequestsFail : Nat := 0
  RequestsTimeout : Nat := 0
  DelayMin : Nat := 0
  DelayMax : Nat := 0
deriving DecidableEq, Repr

/-- The zero `stats` value a run starts from. -/
def initStats : stats := {}

/-- Modulus of the `uint32` counters. -/
def u32 : Nat := 2 ^ 32

/-- `atomic.AddUint32(&x, 1)`: a `uint32` increment, wrapping at `2 ^ 32`. -/
def u32inc (x : Nat) : Nat := (x + 1) % u32

/-- The counter updates of one iteration of `LaunchTask`
(src/bench.go lines 121-132): the total counter is incremented before the
transport call; on a transport error the fail counter is incremented and,
when the error equals `http.ErrHandlerTimeout`, the timeout counter too; on
a response with status exactly `http.StatusOK` (200) the success counter is
incremented; a response with any other status code touches no further
counter. -/
def classify (s : stats) (r : DoResult) : stats :=
  let s1 := { s with RequestsTotal := u32inc s.RequestsTotal }
  match r with
  | .err e =>
    let s2 := { s1 with RequestsFail := u32inc s1.RequestsFail }
    if e = .handlerTimeout then
      { s2 with RequestsTimeout := u32inc s2.RequestsTimeout }
    else s2
  | .resp code =>
    if code = 200 then
      { s1 with RequestsSuccess := u32inc s1.RequestsSuccess }
    else s1

/-- The extremum updates of one iteration of `LaunchTask`
(src/bench.go lines 133-140): if `DelayMin` is zero or the delay is below
it, `DelayMin` is set to the delay; then, if the delay exceeds `DelayMax`,
`DelayMax` is set to the delay.  (In Go these are plain, unsynchronised
reads and writes; this function is their effect when one update runs
without interference.  The interleaved fine-grained semantics is modelled
separately below.) -/
def updateDelay (s : stats) (delay : Nat) : stats :=
  let s1 := if s.DelayMin = 0 ∨ delay < s.DelayMin then { s with DelayMin := delay } else s
  if delay > s1.DelayMax then { s1 with DelayMax := delay } else s1

/-- One full iteration of the worker loop body: counters, then extrema. -/
def launchStep (s : stats) (a : Attempt) : stats :=
  updateDelay (classify s a.1) a.2

/-- The worker loop of `LaunchTask` processing a list of attempt outcomes
in order. -/
def launchTask (s : stats) (l : List Attempt) : stats :=
  l.foldl launchStep s

/-- The attempt produced a response with status 200
(`resp.StatusCode == http.StatusOK`). -/
def isOK : DoResult → Bool
  | .resp c => c = 200
  | .err _ => false

/-- The attempt produced a transport error. -/
def isErr : DoResult → Bool
  | .resp _ => false
  | .err _ => true

/-- The attempt produced the `http.ErrHandlerTimeout` error value — the only
error the code's timeout branch recognises. -/
def isHT : DoResult → Bool
  | .resp _ => false
  | .err e => e = .handlerTimeout

theorem updateDelay_counters (s : stats) (d : Nat) :
    (updateDelay s d).RequestsTotal = s.RequestsTotal ∧
    (updateDelay s d).RequestsSuccess = s.RequestsSuccess ∧
    (updateDelay s d).RequestsFail = s.RequestsFail ∧
    (updateDelay s d).RequestsTimeout = s.RequestsTimeout := by
  simp only [updateDelay]
  split_ifs <;> simp

theorem launchStep_total (s : stats) (a : Attempt) :
    (launchStep s a).RequestsTotal = u32inc s.RequestsTotal := by
  obtain ⟨r, d⟩ := a
  simp only [launchStep]
  rw [(updateDelay_counters _ _).1]
  cases r with
  | resp c => by_cases hc : c = 200 <;> simp [classify, hc]
  | err e => by_cases he : e = DoError.handlerTimeout <;> simp [classify, he]

theorem launchStep_success (s : stats) (a : Attempt) :
    (launchStep s a).RequestsSuccess =
      if isOK a.1 then u32inc s.RequestsSuccess else s.RequestsSuccess := by
  obtain ⟨r, d⟩ := a
  simp only [launchStep]
  rw [(updateDelay_counters _ _).2.1]
  cases r with
  | resp c => by_cases hc : c = 200 <;> simp [classify, isOK, hc]
  | err e =>
    by_cases he : e = DoError.handlerTimeout <;> simp [classify, isOK, he]

theorem launchStep_fail (s : stats) (a : Attempt) :
    (launchStep s a).RequestsFail =
      if isErr a.1 then u32inc s.RequestsFail else s.RequestsFail := by
  obtain ⟨r, d⟩ := a
  simp only [launchStep]
  rw [(updateDelay_counters _ _).2.2.1]
  cases r with
  | resp c => by_cases hc : c = 200 <;> simp [classify, isErr, hc]
  | err e =>
    by_cases he : e = DoError.handlerTimeout <;> simp [classify, isErr, he]

theorem launchStep_timeout (s : stats) (a : Attempt) :
    (launchStep s a).RequestsTimeout =
      if isHT a.1 then u32inc s.RequestsTimeout else s.RequestsTimeout := by
  obtain ⟨r, d⟩ := a
  simp only [launchStep]
  rw [(updateDelay_counters _ _).2.2.2]
  cases r with
  | resp c => by_cases hc : c = 200 <;> simp [classify, isHT, hc]
  | err e =>
    by_cases he : e = DoError.handlerTimeout <;> simp [classify, isHT, he]

theorem u32_pos : 0 < u32 := by decide

theorem u32inc_lt (x : Nat) : u32inc x < u32 :=
  Nat.mod_lt _ u32_pos

/-- Counting the attempts: the total counter accumulates one wrapped
increment per processed attempt. -/
theorem launchTask_total (l : List Attempt) :
    ∀ s : stats, s.RequestsTotal < u32 →
      (launchTask s l).RequestsTotal = (s.RequestsTotal + l.length) % u32 := by
  induction l with
  | nil =>
    intro s hs
    simpa [launchTask] using (Nat.mod_eq_of_lt hs).symm
  | cons a l ih =>
    intro s hs
    have hstep : (launchStep s a).RequestsTotal = (s.RequestsTotal + 1) % u32 :=
      launchStep_total s a
    have hlt : (launchStep s a).RequestsTotal < u32 := by
      rw [hstep]; exact Nat.mod_lt _ u32_pos
    calc (launchTask s (a :: l)).RequestsTotal
        = (launchTask (launchStep s a) l).RequestsTotal := rfl
      _ = ((launchStep s a).RequestsTotal + l.length) % u32 := ih _ hlt
      _ = ((s.RequestsTotal + 1) % u32 + l.length) % u32 := by rw [hstep]
      _ = (s.RequestsTotal + (a :: l).length) % u32 := by
          rw [Nat.mod_add_mod, List.length_cons]
          ring_nf

theorem launchTask_countP (p : DoResult → Bool)
    (proj : stats → Nat)
    (hstep : ∀ s a, proj (launchStep s a) =
      if p a.1 then u32inc (proj s) else proj s)
    (l : List Attempt) :
    ∀ s : stats, proj s < u32 →
      proj (launchTask s l) = (proj s + l.countP (fun a => p a.1)) % u32 := by
  induction l with
  | nil =>
    intro s hs
    simpa [launchTask] using (Nat.mod_eq_of_lt hs).symm
  | cons a l ih =>
    intro s hs
    have h1 : proj (launchStep s a) =
        if p a.1 then u32inc (proj s) else proj s := hstep s a
    by_cases hp : p a.1
    · have hlt : proj (launchStep s a) < u32 := by
        rw [h1, if_pos hp]; exact u32inc_lt _
      calc proj (launchTask s (a :: l))
          = proj (launchTask (launchStep s a) l) := rfl
        _ = (proj (launchStep s a) + l.countP (fun a => p a.1)) % u32 := ih _ hlt
        _ = ((proj s + 1) % u32 + l.countP (fun a => p a.1)) % u32 := by
            rw [h1, if_pos hp]; rfl
        _ = (proj s + (a :: l).countP (fun a => p a.1)) % u32 := by
            rw [Nat.mod_add_mod]
            congr 1
            rw [List.countP_cons, hp]
            simp
            omega
    · have hlt : proj (launchStep s a) < u32 := by
        rw [h1, if_neg hp]; exact hs
      calc proj (launchTask s (a :: l))
          = proj (launchTask (launchStep s a) l) := rfl
        _ = (proj (launchStep s a) + l.countP (fun a => p a.1)) % u32 := ih _ hlt
        _ = (proj s + (a :: l).countP (fun a => p a.1)) % u32 := by
            rw [h1, if_neg hp, List.countP_cons]
            simp [hp]

theorem launchTask_success (l : List Attempt) (s : stats)
    (hs : s.RequestsSuccess < u32) :
    (launchTask s l).RequestsSuccess =
      (s.RequestsSuccess + l.countP (fun a => isOK a.1)) % u32 :=
  launchTask_countP isOK stats.RequestsSuccess launchStep_success l s hs

theorem launchTask_fail (l : List Attempt) (s : stats)
    (hs : s.RequestsFail < u32) :
    (launchTask s l).RequestsFail =
      (s.RequestsFail + l.countP (fun a => isErr a.1)) % u32 :=
  launchTask_countP isErr stats.RequestsFail launchStep_fail l s hs

theorem launchTask_timeout (l : List Attempt) (s : stats)
    (hs : s.RequestsTimeout < u32) :
    (launchTask s l).RequestsTimeout =
      (s.RequestsTimeout + l.countP (fun a => isHT a.1)) % u32 :=
  launchTask_countP isHT stats.RequestsTimeout launchStep_timeout l s hs

/-! ## Argument parsing (`ParseArgs`, src/bench.go lines 56-88)

The stdlib collaborators are modelled from their documented behaviour:

* `url.ParseRequestURI` (net/url): the raw URL "is interpreted only as an
  absolute URI or an absolute path"; it rejects the empty string and strings
  containing ASCII control characters; a string with a well-formed scheme
  prefix (`alpha (alnum | + | - | .)* :`) is accepted whatever follows the
  colon (opaque URIs included), the literal `*` is accepted, and otherwise
  the string must begin with a slash.
* `url.ParseQuery` (net/url): splits on `&`; rejects a semicolon separator
  and invalid percent-escapes; `+` decodes to a space; empty components and
  empty keys are skipped.  The caller in `ParseArgs` only assigns `b.params`
  when the error is nil, so the model returns `none` whenever any component
  is malformed.
* `url.Values.Encode`: keys sorted, `k=v` pairs joined by `&`, both sides
  query-escaped (unreserved characters kept, space becomes `+`, other
  characters percent-encoded; the model covers the ASCII range used here).
-/

/-- ASCII control character (as rejected inside URLs by net/url). -/
def isCtlChar (c : Char) : Bool := c.toNat < 32 || c.toNat == 127

/-- Scan the characters after the leading alphabetic one: scheme characters
until a colon is found. -/
def schemeTail : List Char → Bool
  | [] => false
  | c :: cs =>
    if c = ':' then true
    else (c.isAlphanum || c = '+' || c = '-' || c = '.') && schemeTail cs

/-- The string begins with a well-formed URI scheme followed by a colon. -/
def hasScheme : List Char → Bool
  | [] => false
  | c :: cs => c.isAlpha && schemeTail cs

/-- The first character of the string is `c` (list-level model of a
single-character `String.startsWith`). -/
def headIs (c : Char) : List Char → Bool
  | [] => false
  | c0 :: _ => c0 = c

/-- Model of `url.ParseRequestURI` succeeding (see the section comment). -/
def parseRequestURIOk (s : String) : Bool :=
  s ≠ "" && s.toList.all (fun c => !(isCtlChar c)) &&
    (s = "*" || headIs '/' s.toList || hasScheme s.toList)

/-- Hexadecimal digit (either case), as accepted in a `%XX` escape. -/
def isHexDigitCh (c : Char) : Bool :=
  c.isDigit || "abcdefABCDEF".toList.contains c

/-- Value of a hexadecimal digit. -/
def hexVal (c : Char) : Nat :=
  if c.isDigit then c.toNat - 48
  else if c.toNat ≥ 97 then c.toNat - 87
  else c.toNat - 55

/-- Query-unescape a component: `%XX` escapes decoded, `+` becomes a space;
`none` on a malformed escape (model of `url.QueryUnescape`). -/
def unescape : List Char → Option (List Char)
  | [] => some []
  | '%' :: c1 :: c2 :: rest =>
    if isHexDigitCh c1 && isHexDigitCh c2 then
      (unescape rest).map (fun l => Char.ofNat (16 * hexVal c1 + hexVal c2) :: l)
    else none
  | '%' :: _ => none
  | '+' :: rest => (unescape rest).map (fun l => ' ' :: l)
  | c :: rest => (unescape rest).map (fun l => c :: l)

/-- Split a character list at every occurrence of the separator (the
list-level counterpart of splitting a string on `&`). -/
def splitOnChar (sep : Char) : List Char → List (List Char)
  | [] => [[]]
  | c :: cs =>
    if c = sep then [] :: splitOnChar sep cs
    else
      match splitOnChar sep cs with
      | [] => [[c]]
      | g :: gs => (c :: g) :: gs

/-- Cut a component at its first `=` (as `strings.Cut` does): the key is
everything before it, the value everything after; a missing `=` yields an
empty value. -/
def cutEq (comp : List Char) : List Char × List Char :=
  let k := comp.takeWhile (fun c => c ≠ '=')
  match comp.dropWhile (fun c => c ≠ '=') with
  | [] => (k, [])
  | _ :: v => (k, v)

/-- Parse one `key=value` component, unescaping both sides. -/
def parseQueryComp (comp : List Char) : Option (String × String) :=
  let kv := cutEq comp
  match unescape kv.1, unescape kv.2 with
  | some k2, some v2 => some (⟨k2⟩, ⟨v2⟩)
  | _, _ => none

/-- Parse all components, failing if any is malformed. -/
def parseQueryList : List (List Char) → Option (List (String × String))
  | [] => some []
  | comp :: rest =>
    match parseQueryComp comp, parseQueryList rest with
    | some p, some ps => some (p :: ps)
    | _, _ => none

/-- Model of `url.ParseQuery` as used by `ParseArgs`: `some` of the parsed
key/value pairs when the whole string is well-formed, `none` on any error
(semicolon separator or bad escape); empty components are skipped. -/
def parseQuery (s : String) : Option (List (String × String)) :=
  if s.toList.contains ';' then none
  else parseQueryList ((splitOnChar '&' s.toList).filter (fun c => c ≠ []))

/-- Uppercase hexadecimal digit. -/
def hexDigitUpper (n : Nat) : Char :=
  if n < 10 then Char.ofNat (48 + n) else Char.ofNat (55 + n)

/-- Two-digit uppercase hex rendering of a byte. -/
def hexByte (n : Nat) : String :=
  ⟨[hexDigitUpper (n / 16 % 16), hexDigitUpper (n % 16)]⟩

/-- Query-escape one character (model of `url.QueryEscape` on the ASCII
range: unreserved characters kept, space becomes `+`, the rest
percent-encoded). -/
def escCh (c : Char) : String :=
  if c.isAlphanum || c = '-' || c = '_' || c = '.' || c = '~' then
    String.singleton c
  else if c = ' ' then "+"
  else "%" ++ hexByte c.toNat

/-- Query-escape a string. -/
def queryEscape (s : String) : String :=
  String.join (s.toList.map escCh)

/-- Stable insertion of a pair into a key-sorted association list. -/
def insertByKey (p : String × String) : List (String × String) → List (String × String)
  | [] => [p]
  | q :: qs => if p.1 ≤ q.1 then p :: q :: qs else q :: insertByKey p qs

/-- Key-sort an association list (`url.Values.Encode` sorts by key). -/
def sortByKey (l : List (String × String)) : List (String × String) :=
  l.foldr insertByKey []

/-- Model of `url.Values.Encode`. -/
def encodeParams (l : List (String × String)) : String :=
  String.intercalate "&"
    ((sortByKey l).map (fun p => queryEscape p.1 ++ "=" ++ queryEscape p.2))

/-- The `bench` struct of src/bench.go (the fields the claims need; the
`http.Client` field only carries the timeout, already present).
`params` models `url.Values` as an association list (`nil` and the empty
map both encode to the empty string, so both are `[]`); `data` models the
`map[string]any` body by its `json.Marshal` serialisation, `none` for the
nil map.  Note no code path of the program ever assigns `data`. -/
structure bench where
  requests : Nat := 0
  concurrency : Nat := 0
  timeout : Nat := 0
  host : String := ""
  method : String := ""
  params : List (String × String) := []
  data : Option String := none
deriving DecidableEq, Repr

/-- The `task` struct of src/bench.go: Go zero values for the fields the
literal in `Run` does not mention (`method` stays `""`, `data` stays nil). -/
structure task where
  url : String := ""
  method : String := ""
  data : Option String := none
deriving DecidableEq, Repr

/-- The command-line inputs read by `ParseArgs` (flag defaults as in the
source). -/
structure Args where
  numRequest : Nat := 1000
  concurrency : Nat := 1
  timeout : Nat := 100
  host : String := ""
  method : String := "GET"
  params : String := ""
deriving DecidableEq, Repr

/-- The method allow-list of the `switch` in `ParseArgs`. -/
def allowedMethods : List String := ["GET", "POST", "PUT", "PATCH", "DELETE"]

/-- `ParseArgs` (src/bench.go lines 56-88): the method must be in the
allow-list, the host must be accepted by `url.ParseRequestURI`; a
`url.ParseQuery` failure is swallowed, leaving `b.params` nil (which
behaves as the empty parameter set).  Numeric flags are stored unchecked. -/
def ParseArgs (a : Args) : Except String bench :=
  if ¬ (a.method ∈ allowedMethods) then .error "unsupported HTTP method"
  else if ¬ (parseRequestURIOk a.host) then .error "invalid URL"
  else .ok
    { requests := a.numRequest
      concurrency := a.concurrency
      timeout := a.timeout
      host := a.host
      method := a.method
      params := (parseQuery a.params).getD []
      data := none }

/-- `ParseArgs` returned without error. -/
def parseOk (a : Args) : Bool :=
  match ParseArgs a with
  | .ok _ => true
  | .error _ => false

/-! ## Dispatch (`Run`, `LaunchTask`) and the transport collaborator

`Run` (src/bench.go lines 90-111) builds one task, computes the per-worker
iteration count by unguarded integer division, and starts `concurrency`
workers, each running `LaunchTask(numRequests, task)`; it joins on all of
them.  A transport collaborator `tr : Nat → Nat → Attempt` gives the outcome
`tr w i` of worker `w`'s iteration `i`.

The embedding runs the workers in sequence.  For the counter fields this is
faithful to every interleaving: each counter update is a single atomic
`atomic.AddUint32`, so the final counter values depend only on the multiset
of attempt outcomes, not on their order.  The extremum fields are racy plain
writes; their fine-grained interleaving is modelled separately below
(`execStep`/`runSched`). -/

/-- An HTTP request as built by `http.NewRequest`. -/
structure Request where
  method : String
  url : String
  body : Option String
deriving DecidableEq, Repr

/-- HTTP token characters (the common ASCII ones) — `http.NewRequest`
rejects a method that is not a valid token. -/
def isTokenChar (c : Char) : Bool :=
  c.isAlphanum || "!#$%&*+-.^_|~".toList.contains c

/-- The string is a valid HTTP method token. -/
def validMethodToken (m : String) : Bool :=
  m ≠ "" && m.toList.all isTokenChar

/-- Model of `url.Parse` (the lenient parser used by `http.NewRequest`)
succeeding: it rejects ASCII control characters; at the granularity the
claims need, everything else the program ever feeds it parses. -/
def urlParseOk (s : String) : Bool :=
  s.toList.all (fun c => !(isCtlChar c))

/-- Model of `http.NewRequest(method, url, body)`: an empty method defaults
to `"GET"` (documented in net/http); fails if the method is not a token or
the URL does not parse. -/
def newRequest (method url_ : String) (body : Option String) : Option Request :=
  let m := if method = "" then "GET" else method
  if validMethodToken m && urlParseOk url_ then
    some { method := m, url := url_, body := body }
  else none

/-- The task literal built by `Run` (src/bench.go lines 94-101): only `url`
is set in the literal — `method` keeps its zero value `""`; `data` is set
to the marshalled body only when `b.data` is non-nil. -/
def buildTask (b : bench) : task :=
  let t : task := { url := b.host ++ "?" ++ encodeParams b.params }
  match b.data with
  | some d => { t with data := some d }
  | none => t

/-- `LaunchTask` (src/bench.go lines 113-143): builds the request once with
`http.NewRequest(t.method, t.url, nil)` — note the `nil` body argument, the
descriptor's `data` field is not used — and returns silently if that fails;
otherwise runs `numRequest` iterations against the transport. -/
def LaunchTask (numRequest : Nat) (t : task) (tr : Nat → Attempt) (s : stats) : stats :=
  match newRequest t.method t.url none with
  | none => s
  | some _ => launchTask s ((List.range numRequest).map tr)

/-- The `concurrency`-many workers of `Run`, composed in sequence (see the
section comment for why this is faithful for the counters). -/
def runWorkers (k : Nat) (t : task) (tr : Nat → Nat → Attempt) : Nat → stats → stats
  | 0, s => s
  | c + 1, s => LaunchTask k t (tr c) (runWorkers k t tr c s)

/-- `Run` (src/bench.go lines 90-111).  The per-worker count
`b.requests / b.concurrency` is an unguarded `uint` division: when
`b.concurrency = 0` the Go program panics with a runtime divide-by-zero,
modelled as `none`. -/
def Run (b : bench) (tr : Nat → Nat → Attempt) : Option stats :=
  if b.concurrency = 0 then none
  else
    let numRequests := b.requests / b.concurrency
    some (runWorkers numRequests (buildTask b) tr b.concurrency initStats)

/-- Outcome of the whole program (src/main.go): a fatal configuration error
from `ParseArgs` reaches `log.Fatalln` and the process exits before `Run`
is ever called; otherwise `Run` executes. -/
inductive MainOutcome where
  | configError (msg : String)
  | ran (s : Option stats)
deriving DecidableEq, Repr

/-- `main` (src/main.go): parse, then run.  (The interrupt watcher only
affects when `PrintResult` fires, which is modelled by the elapsed-time
parameter of `PrintResult`.) -/
def mainModel (a : Args) (tr : Nat → Nat → Attempt) : MainOutcome :=
  match ParseArgs a with
  | .error e => .configError e
  | .ok b => .ran (Run b tr)

/-! ## Reporting (`PrintResult`, src/bench.go lines 145-175)

`rps := float64(b.stats.RequestsTotal) / b.stats.Runtime.Seconds()` is an
IEEE-754 `float64` division with no branch around it.  Go float division
does not panic; by IEEE-754, `x / 0` is `+Inf` for `x > 0` and `NaN` for
`x = 0`.  The embedding models the float value at that granularity: a tag
for infinity, a tag for NaN, and an exact rational for the finite case
(rounding of finite results is irrelevant to the claims).  The elapsed
runtime is passed in as nanoseconds (`time.Since(b.stats.LaunchTime)`);
`Runtime.Seconds()` is the nanosecond count divided by 1e9. -/

/-- A `float64` value at the granularity the claims need. -/
inductive FloatVal where
  | finite (q : ℚ)
  | inf
  | nan
deriving DecidableEq, Repr

/-- IEEE-754 division of non-negative finite operands. -/
def fdiv (x y : ℚ) : FloatVal :=
  if y = 0 then (if x = 0 then FloatVal.nan else FloatVal.inf)
  else FloatVal.finite (x / y)

/-- The nine values `PrintResult` renders. -/
structure Report where
  RuntimeNs : Nat
  Concurrency : Nat
  RequestsPerSecond : FloatVal
  RequestsTotal : Nat
  RequestsSuccess : Nat
  RequestsFail : Nat
  RequestsTimeout : Nat
  DelayMin : Nat
  DelayAvg : Int
  DelayMax : Nat
deriving DecidableEq, Repr

/-- `PrintResult` (src/bench.go lines 145-175): computes the runtime, the
unguarded requests-per-second division, and
`DelayAvg = (DelayMax - DelayMin) / 2` — a signed `time.Duration`
subtraction followed by Go integer halving (truncation toward zero) — then
renders all nine values. -/
def PrintResult (b : bench) (s : stats) (elapsedNs : Nat) : Report :=
  { RuntimeNs := elapsedNs
    Concurrency := b.concurrency
    RequestsPerSecond := fdiv (s.RequestsTotal : ℚ) ((elapsedNs : ℚ) / 1000000000)
    RequestsTotal := s.RequestsTotal
    RequestsSuccess := s.RequestsSuccess
    RequestsFail := s.RequestsFail
    RequestsTimeout := s.RequestsTimeout
    DelayMin := s.DelayMin
    DelayAvg := Int.tdiv ((s.DelayMax : Int) - (s.DelayMin : Int)) 2
    DelayMax := s.DelayMax }

/-! ## Fine-grained semantics of the extremum updates

Lines 135-140 of src/bench.go read and write `b.stats.DelayMin` and
`b.stats.DelayMax` with plain, unsynchronised loads and stores, from every
worker goroutine at once.  The model below splits one worker's extremum
update into its four shared-memory accesses — evaluate the min-condition,
conditionally store the min, evaluate the max-condition, conditionally
store the max — and executes two workers under an explicit interleaving
(a schedule saying whose next access runs).  Each worker performs its own
accesses in program order. -/

/-- The shared `DelayMin`/`DelayMax` fields. -/
structure MemState where
  DelayMin : Nat
  DelayMax : Nat
deriving DecidableEq, Repr

/-- One shared-memory access of the extremum-update code. -/
inductive UStep where
  | readMin
  | writeMin
  | readMax
  | writeMax
deriving DecidableEq, Repr

/-- A worker executing the extremum update for its measured `delay`:
the conditions it has evaluated so far and the accesses still to run. -/
structure WorkerST where
  delay : Nat
  condMin : Bool := false
  condMax : Bool := false
  prog : List UStep
deriving DecidableEq, Repr

/-- The access sequence of lines 135-140, in program order. -/
def workerProg : List UStep := [.readMin, .writeMin, .readMax, .writeMax]

/-- Execute the worker's next access against the shared fields. -/
def execStep (mem : MemState) (w : WorkerST) : MemState × WorkerST :=
  match w.prog with
  | [] => (mem, w)
  | st :: rest =>
    let w1 := { w with prog := rest }
    match st with
    | .readMin =>
      (mem, { w1 with condMin := mem.DelayMin == 0 || decide (w.delay < mem.DelayMin) })
    | .writeMin =>
      (if w.condMin then { mem with DelayMin := w.delay } else mem, w1)
    | .readMax =>
      (mem, { w1 with condMax := decide (w.delay > mem.DelayMax) })
    | .writeMax =>
      (if w.condMax then { mem with DelayMax := w.delay } else mem, w1)

/-- Two workers over the shared extremum fields. -/
structure RaceCfg where
  mem : MemState
  w0 : WorkerST
  w1 : WorkerST
deriving DecidableEq, Repr

/-- Run the next access of the scheduled worker (`false` = worker 0,
`true` = worker 1). -/
def stepSched (c : RaceCfg) (i : Bool) : RaceCfg :=
  if i then
    let p := execStep c.mem c.w1
    { c with mem := p.1, w1 := p.2 }
  else
    let p := execStep c.mem c.w0
    { c with mem := p.1, w0 := p.2 }

/-- Execute a whole interleaving. -/
def runSched (c : RaceCfg) (sched : List Bool) : RaceCfg :=
  sched.foldl stepSched c

/-- Both extremum fields zero, worker 0 measured a 10 ns delay, worker 1 a
7 ns delay, each about to run the update code. -/
def raceStart : RaceCfg :=
  { mem := { DelayMin := 0, DelayMax := 0 }
    w0 := { delay := 10, prog := workerProg }
    w1 := { delay := 7, prog := workerProg } }

/-- The interleaving: both workers evaluate the min-condition against the
initial zeroes, worker 1 stores its min first; both evaluate the
max-condition against the initial zero, worker 0 stores its max first. -/
def raceSched : List Bool := [false, true, true, false, false, true, false, true]

/-! ## Spec-side definitions

These follow the specification's words, for comparison with the
source-derived definitions above. -/

/-- Spec-side (C1): every attempt of the run is classified — each non-error
response carried status 200, so nothing falls into the code's silent
neither-success-nor-fail bucket. -/
def noSilent (l : List Attempt) : Bool :=
  l.all (fun a => isOK a.1 || isErr a.1)

/-- Spec-side (C4), the claim's formula: average latency as the midpoint of
the minimum and maximum observed latencies. -/
def delayAvgSpecMidpoint (mn mx : Nat) : Int :=
  ((mn : Int) + (mx : Int)) / 2

/-- Spec-side (C4), amended: half the observed latency range (Go integer
division truncates toward zero, hence `Int.tdiv`). -/
def delayAvgHalfRange (mn mx : Nat) : Int :=
  Int.tdiv ((mx : Int) - (mn : Int)) 2

/-- Spec-side (C6): "a well-formed absolute URL" — an absolute URL carries a
scheme (an absolute path such as `/health` is not one). -/
def specAbsoluteURL (s : String) : Bool :=
  s ≠ "" && s.toList.all (fun c => !(isCtlChar c)) && hasScheme s.toList

/-! ## Helper lemmas -/

theorem isOK_isErr_not_both (r : DoResult) : ¬ (isOK r = true ∧ isErr r = true) := by
  cases r <;> simp [isOK, isErr]

theorem noSilent_count (l : List Attempt) (h : noSilent l = true) :
    l.countP (fun a => isOK a.1) + l.countP (fun a => isErr a.1) = l.length := by
  induction l with
  | nil => simp
  | cons a l ih =>
    rw [noSilent, List.all_cons, Bool.and_eq_true] at h
    obtain ⟨ha, hl⟩ := h
    have hrec := ih hl
    rw [List.countP_cons, List.countP_cons, List.length_cons]
    rcases Bool.or_eq_true_iff.mp ha with hok | herr
    · have hne : isErr a.1 = false := by
        rcases hb : isErr a.1 with _ | _
        · rfl
        · exact absurd ⟨hok, hb⟩ (isOK_isErr_not_both a.1)
      rw [hok, hne]
      simp
      omega
    · have hne : isOK a.1 = false := by
        rcases hb : isOK a.1 with _ | _
        · rfl
        · exact absurd ⟨hb, herr⟩ (isOK_isErr_not_both a.1)
      rw [herr, hne]
      simp
      omega

theorem classify_delays (s : stats) (r : DoResult) :
    (classify s r).DelayMin = s.DelayMin ∧ (classify s r).DelayMax = s.DelayMax := by
  rcases r with c | e
  · by_cases hc : c = 200 <;> simp [classify, hc]
  · by_cases he : e = DoError.handlerTimeout <;> simp [classify, he]

theorem updateDelay_min_le_max (s : stats) (d : Nat)
    (h : s.DelayMin ≤ s.DelayMax) :
    (updateDelay s d).DelayMin ≤ (updateDelay s d).DelayMax := by
  simp only [updateDelay]
  split_ifs <;> simp_all

theorem launchTask_min_le_max (l : List Attempt) :
    ∀ s : stats, s.DelayMin ≤ s.DelayMax →
      (launchTask s l).DelayMin ≤ (launchTask s l).DelayMax := by
  induction l with
  | nil => intro s hs; simpa [launchTask] using hs
  | cons a l ih =>
    intro s hs
    have h1 : (launchStep s a).DelayMin ≤ (launchStep s a).DelayMax := by
      simp only [launchStep]
      exact updateDelay_min_le_max _ _
        (by rw [(classify_delays s a.1).1, (classify_delays s a.1).2]; exact hs)
    exact ih _ h1

theorem buildTask_method (b : bench) : (buildTask b).method = "" := by
  unfold buildTask
  cases b.data <;> rfl

theorem newRequest_empty_method (u : String) (hurl : urlParseOk u = true) :
    newRequest "" u none = some { method := "GET", url := u, body := none } := by
  unfold newRequest
  have hv : validMethodToken "GET" = true := by decide
  simp [hv, hurl]

theorem runWorkers_total (k : Nat) (t : task) (tr : Nat → Nat → Attempt)
    (req : Request)
    (hreq : newRequest t.method t.url none = some req) :
    ∀ (c : Nat) (s : stats), s.RequestsTotal < u32 →
      (runWorkers k t tr c s).RequestsTotal = (s.RequestsTotal + c * k) % u32 := by
  intro c
  induction c with
  | zero =>
    intro s hs
    simpa [runWorkers] using (Nat.mod_eq_of_lt hs).symm
  | succ c ih =>
    intro s hs
    have hin := ih s hs
    have hlt : (runWorkers k t tr c s).RequestsTotal < u32 := by
      rw [hin]; exact Nat.mod_lt _ u32_pos
    show (LaunchTask k t (tr c) (runWorkers k t tr c s)).RequestsTotal = _
    unfold LaunchTask
    rw [hreq]
    rw [launchTask_total _ _ hlt, List.length_map, List.length_range, hin,
      Nat.mod_add_mod]
    congr 1
    ring

/-! ## The claims -/

/-- C1 is false of the code: a run whose single attempt draws a response
with status 500 (no transport error) ends with `total = 1` but
`success = 0` and `fail = 0` — a non-success status code increments
neither counter, so `total ≠ success + fail`. -/
theorem c1_counterexample :
    (launchTask initStats [(.resp 500, 7)]).RequestsTotal ≠
      (launchTask initStats [(.resp 500, 7)]).RequestsSuccess +
        (launchTask initStats [(.resp 500, 7)]).RequestsFail := by
  decide

/-- C1 (amended): `total = success + fail` holds exactly for runs in which
every non-error response carries status 200 (and, the counters being
`uint32`, fewer than `2 ^ 32` attempts are made); success means status
exactly 200, a transport error increments fail, and an attempt whose
response carries any other status code is counted in neither bucket. -/
theorem c1_total_split (l : List Attempt) (hlen : l.length < u32)
    (hns : noSilent l = true) :
    (launchTask initStats l).RequestsTotal =
      (launchTask initStats l).RequestsSuccess +
        (launchTask initStats l).RequestsFail := by
  have htot := launchTask_total l initStats u32_pos
  have hsuc := launchTask_success l initStats u32_pos
  have hfail := launchTask_fail l initStats u32_pos
  have hcnt := noSilent_count l hns
  have h1 : l.countP (fun a => isOK a.1) ≤ l.length := List.countP_le_length _
  have h2 : l.countP (fun a => isErr a.1) ≤ l.length := List.countP_le_length _
  have e0 : initStats.RequestsTotal = 0 := rfl
  have e1 : initStats.RequestsSuccess = 0 := rfl
  have e2 : initStats.RequestsFail = 0 := rfl
  rw [htot, hsuc, hfail, e0, e1, e2, Nat.zero_add, Nat.zero_add, Nat.zero_add,
    Nat.mod_eq_of_lt hlen, Nat.mod_eq_of_lt (lt_of_le_of_lt h1 hlen),
    Nat.mod_eq_of_lt (lt_of_le_of_lt h2 hlen)]
  omega

/-- C1 (witness): a run of one 200-response and one transport error
satisfies the amended claim: `total = 2 = 1 + 1 = success + fail`. -/
theorem c1_witness :
    (launchTask initStats [(.resp 200, 5), (.err .other, 7)]).RequestsTotal =
      (launchTask initStats [(.resp 200, 5), (.err .other, 7)]).RequestsSuccess +
        (launchTask initStats [(.resp 200, 5), (.err .other, 7)]).RequestsFail :=
  c1_total_split _ (by decide) (by decide)

/-- C2 (code bug): a run of three attempts whose transport calls all fail
with the client-timeout error — the `*url.Error` with `Timeout() = true`
that `http.Client.Do` actually returns when the configured timeout
elapses — ends with `fail = total = 3` and `success = 0`, but
`timeout = 0`, not `timeout = total` as the claim states: the code's
timeout branch compares the error against `http.ErrHandlerTimeout`, a
server-side sentinel that `Client.Do` never returns, so client timeouts
increment the fail counter only. -/
theorem c2_timeout_never_counted :
    (launchTask initStats (List.replicate 3 (.err .urlTimeout, 5))).RequestsTotal = 3 ∧
    (launchTask initStats (List.replicate 3 (.err .urlTimeout, 5))).RequestsFail = 3 ∧
    (launchTask initStats (List.replicate 3 (.err .urlTimeout, 5))).RequestsSuccess = 0 ∧
    (launchTask initStats (List.replicate 3 (.err .urlTimeout, 5))).RequestsTimeout = 0 := by
  decide

/-- A configuration with method POST, query parameter `a=1` and a non-nil
body, for exercising the task construction. -/
def c3bench : bench :=
  { requests := 10
    concurrency := 2
    timeout := 100
    host := "http://example.com"
    method := "POST"
    params := [("a", "1")]
    data := some "\x7b\x7d" }

/-- C3 (code bug): the task literal built by `Run` carries the composed URL
and (when `b.data` is non-nil) the marshalled body, but its `method` field
is left at the zero value `""` — the configured method `POST` is never
copied into it — and `LaunchTask` passes a nil body to `http.NewRequest`,
so the request actually sent uses method `GET` (the documented default for
an empty method) and no body. -/
theorem c3_method_and_body_dropped :
    (buildTask c3bench).url = "http://example.com?a=1" ∧
    (buildTask c3bench).method = "" ∧
    (buildTask c3bench).method ≠ c3bench.method ∧
    (buildTask c3bench).data = some "\x7b\x7d" ∧
    newRequest (buildTask c3bench).method (buildTask c3bench).url none =
      some { method := "GET", url := "http://example.com?a=1", body := none } ∧
    ("GET" : String) ≠ c3bench.method := by
  refine ⟨rfl, rfl, by decide, rfl, rfl, by decide⟩

/-- Statistics after two completed requests with latencies between 4 ns and
10 ns, as `PrintResult` would read them. -/
def s4 : stats :=
  { RequestsTotal := 2, RequestsSuccess := 2, DelayMin := 4, DelayMax := 10 }

/-- C4 is false of the code: with `DelayMin = 4` and `DelayMax = 10` the
reported average is `(10 - 4) / 2 = 3`, not the midpoint
`(4 + 10) / 2 = 7` the claim states. -/
theorem c4_counterexample :
    (PrintResult {} s4 1000).DelayAvg ≠ delayAvgSpecMidpoint s4.DelayMin s4.DelayMax := by
  decide

/-- C4 (amended): at report time `DelayAvg = (DelayMax - DelayMin) / 2` —
half the observed latency range, not the midpoint of the extrema. -/
theorem c4_delayavg_halfrange (b : bench) (s : stats) (e : Nat) :
    (PrintResult b s e).DelayAvg = delayAvgHalfRange s.DelayMin s.DelayMax := rfl

/-- C5: with concurrency `c > 0` (and a task URL the request constructor
accepts, as every URL built from a parsed configuration is), `Run` gives
each of the `c` workers exactly `⌊n/c⌋` iterations, so the run completes
with the total counter holding `c * ⌊n/c⌋` (as a `uint32`): on a division
with remainder the `n mod c` leftover requests are silently dropped, and
when `c` divides `n` all `n` attempts are recorded. -/
theorem c5_partition (b : bench) (tr : Nat → Nat → Attempt)
    (hc : 0 < b.concurrency)
    (hurl : urlParseOk (buildTask b).url = true) :
    ∃ s : stats, Run b tr = some s ∧
      s.RequestsTotal = (b.concurrency * (b.requests / b.concurrency)) % u32 ∧
      (b.requests < u32 →
        s.RequestsTotal = b.concurrency * (b.requests / b.concurrency)) ∧
      (b.concurrency ∣ b.requests →
        b.concurrency * (b.requests / b.concurrency) = b.requests) ∧
      b.concurrency * (b.requests / b.concurrency) =
        b.requests - b.requests % b.concurrency := by
  have hm : (buildTask b).method = "" := buildTask_method b
  have hreq : newRequest (buildTask b).method (buildTask b).url none =
      some { method := "GET", url := (buildTask b).url, body := none } := by
    rw [hm]; exact newRequest_empty_method _ hurl
  have hdm : b.concurrency * (b.requests / b.concurrency) ≤ b.requests := by
    calc b.concurrency * (b.requests / b.concurrency)
        = b.requests / b.concurrency * b.concurrency := Nat.mul_comm _ _
      _ ≤ b.requests := Nat.div_mul_le_self _ _
  refine ⟨runWorkers (b.requests / b.concurrency) (buildTask b) tr b.concurrency initStats,
    ?_, ?_, ?_, ?_, ?_⟩
  · unfold Run
    rw [if_neg (Nat.pos_iff_ne_zero.mp hc)]
  · have h := runWorkers_total (b.requests / b.concurrency) (buildTask b) tr _ hreq
      b.concurrency initStats u32_pos
    have e0 : initStats.RequestsTotal = 0 := rfl
    rw [e0, Nat.zero_add] at h
    exact h
  · intro hlt
    have h := runWorkers_total (b.requests / b.concurrency) (buildTask b) tr _ hreq
      b.concurrency initStats u32_pos
    have e0 : initStats.RequestsTotal = 0 := rfl
    rw [e0, Nat.zero_add] at h
    rw [h]
    exact Nat.mod_eq_of_lt (lt_of_le_of_lt hdm hlt)
  · intro hdvd
    exact Nat.mul_div_cancel' hdvd
  · have := Nat.div_add_mod b.requests b.concurrency
    omega

/-- The concrete configuration for the C5 witness: ten requests over three
workers. -/
def c5bench : bench :=
  { requests := 10, concurrency := 3, timeout := 100, host := "http://example.com" }

/-- A transport that always answers 200 after 5 ns. -/
def trOK : Nat → Nat → Attempt := fun _ _ => (.resp 200, 5)

/-- C5 (witness): ten requests over three workers record exactly
`3 * ⌊10/3⌋ = 9` attempts; the remainder request is dropped. -/
theorem c5_witness :
    ∃ s : stats, Run c5bench trOK = some s ∧
      s.RequestsTotal = (c5bench.concurrency * (c5bench.requests / c5bench.concurrency)) % u32 ∧
      (c5bench.requests < u32 →
        s.RequestsTotal = c5bench.concurrency * (c5bench.requests / c5bench.concurrency)) ∧
      (c5bench.concurrency ∣ c5bench.requests →
        c5bench.concurrency * (c5bench.requests / c5bench.concurrency) = c5bench.requests) ∧
      c5bench.concurrency * (c5bench.requests / c5bench.concurrency) =
        c5bench.requests - c5bench.requests % c5bench.concurrency :=
  c5_partition c5bench trOK (by decide) (by decide)

/-- The configuration-argument vector exhibiting the C6 counterexample: the
default method GET and the rooted absolute path `/health` as host. -/
def c6args : Args := { host := "/health" }

/-- C6 is false as stated: `url.ParseRequestURI` also accepts a rooted
absolute path, so for host `/health` — which is not a well-formed absolute
URL (it has no scheme) — `ParseArgs` nevertheless succeeds: parsing does
not fail "exactly when … the target host is not a well-formed absolute
URL". -/
theorem c6_counterexample :
    parseOk c6args = true ∧ specAbsoluteURL c6args.host = false := by
  decide

/-- C6 (amended): `ParseArgs` fails exactly when the method is outside the
allow-list GET/POST/PUT/PATCH/DELETE or the host is rejected by the
request-URI parser (which accepts absolute URLs and also rooted absolute
paths); a malformed query string never causes a failure — the parsed
parameters silently fall back to the empty set — and on a fatal
configuration error the program reports it and never runs, so no request
is ever sent. -/
theorem c6_parse_exact :
    (∀ a : Args, parseOk a = true ↔
      (a.method ∈ allowedMethods ∧ parseRequestURIOk a.host = true)) ∧
    (∀ (a : Args) (b0 : bench), ParseArgs a = .ok b0 →
      b0.params = (parseQuery a.params).getD []) ∧
    (∀ (a : Args) (tr : Nat → Nat → Attempt) (e : String),
      ParseArgs a = .error e → mainModel a tr = .configError e) := by
  refine ⟨?_, ?_, ?_⟩
  · intro a
    unfold parseOk ParseArgs
    by_cases h1 : a.method ∈ allowedMethods
    · by_cases h2 : parseRequestURIOk a.host = true
      · simp [h1, h2]
      · simp [h1, h2]
    · simp [h1]
  · intro a b0 hb
    unfold ParseArgs at hb
    split_ifs at hb
    injection hb with hb
    rw [← hb]
  · intro a tr e he
    unfold mainModel
    rw [he]

/-- An argument vector with the disallowed method HEAD. -/
def c6bad : Args := { host := "http://example.com", method := "HEAD" }

/-- C6 (witness): with method HEAD the program stops at the configuration
error and never reaches `Run`. -/
theorem c6_witness :
    mainModel c6bad trOK = .configError "unsupported HTTP method" :=
  c6_parse_exact.2.2 c6bad trOK "unsupported HTTP method" rfl

/-- C7: before the first completion both extrema hold the zero sentinel;
one (uninterfered) extremum update preserves `min ≤ max`; hence after any
completed sequence of attempts the recorded minimum is at most the
recorded maximum. -/
theorem c7_extrema_invariant :
    (initStats.DelayMin = 0 ∧ initStats.DelayMax = 0) ∧
    (∀ (s : stats) (d : Nat), s.DelayMin ≤ s.DelayMax →
      (updateDelay s d).DelayMin ≤ (updateDelay s d).DelayMax) ∧
    (∀ l : List Attempt,
      (launchTask initStats l).DelayMin ≤ (launchTask initStats l).DelayMax) :=
  ⟨⟨rfl, rfl⟩, updateDelay_min_le_max,
    fun l => launchTask_min_le_max l initStats (Nat.le_refl 0)⟩

/-- C7 (witness): an update with a latency between the current extrema
keeps `min ≤ max`. -/
theorem c7_witness :
    (updateDelay { DelayMin := 3, DelayMax := 5 } 4).DelayMin ≤
      (updateDelay { DelayMin := 3, DelayMax := 5 } 4).DelayMax :=
  c7_extrema_invariant.2.1 { DelayMin := 3, DelayMax := 5 } 4 (by decide)

/-- Statistics holding only a total-attempted count, as read at report
time. -/
def c8stats (t : Nat) : stats := { RequestsTotal := t }

/-- C8 is false as stated: there is no explicit fallback value reported
when the elapsed time is zero — the code performs the IEEE-754 division
unguarded, so at zero elapsed seconds the reported value is `NaN` when the
total is 0 and `+Inf` when it is 1: no single fallback value covers the
zero-elapsed case. -/
theorem c8_counterexample :
    ¬ ∃ v : FloatVal, ∀ t : Nat,
      (PrintResult {} (c8stats t) 0).RequestsPerSecond = v := by
  rintro ⟨v, hv⟩
  have h0 := hv 0
  have h1 := hv 1
  have e0 : (PrintResult {} (c8stats 0) 0).RequestsPerSecond = FloatVal.nan := by
    norm_num [PrintResult, fdiv, c8stats]
  have e1 : (PrintResult {} (c8stats 1) 0).RequestsPerSecond = FloatVal.inf := by
    norm_num [PrintResult, fdiv, c8stats]
  rw [e0] at h0
  rw [e1] at h1
  rw [← h0] at h1
  exact FloatVal.noConfusion h1

/-- C8 (amended): the reporter computes requests-per-second as total
divided by elapsed seconds with no guard: for positive elapsed time the
quotient is exact, and when the elapsed time is zero the unguarded
IEEE-754 division yields `+Inf` (or `NaN` when the total is also zero)
rather than any explicit fallback; it does not crash. -/
theorem c8_rps_unguarded (b : bench) (s : stats) (e : Nat) :
    (0 < e → (PrintResult b s e).RequestsPerSecond =
      FloatVal.finite ((s.RequestsTotal : ℚ) * 1000000000 / (e : ℚ))) ∧
    (e = 0 → (PrintResult b s e).RequestsPerSecond =
      (if s.RequestsTotal = 0 then FloatVal.nan else FloatVal.inf)) := by
  constructor
  · intro he
    have hne : ((e : ℚ) / 1000000000) ≠ 0 := by
      have h1 : (e : ℚ) ≠ 0 := Nat.cast_ne_zero.mpr (Nat.pos_iff_ne_zero.mp he)
      exact div_ne_zero h1 (by norm_num)
    unfold PrintResult fdiv
    rw [if_neg hne]
    rw [div_div_eq_mul_div]
  · intro he
    subst he
    unfold PrintResult fdiv
    norm_num

/-- Statistics holding two attempts, for the C8 witness. -/
def c8s2 : stats := { RequestsTotal := 2 }

/-- C8 (witness): with 2 attempts in 2 ns the reported rate is the exact
quotient `2 * 10^9 / 2` requests per second. -/
theorem c8_witness :
    (PrintResult {} c8s2 2).RequestsPerSecond =
      FloatVal.finite ((c8s2.RequestsTotal : ℚ) * 1000000000 / ((2 : Nat) : ℚ)) :=
  (c8_rps_unguarded {} c8s2 2).1 (by decide)

/-- C9 (code bug): the extremum updates are NOT compare-and-swap-style
atomic operations — they are plain read-then-write pairs — and under the
exhibited interleaving of two workers (latencies 10 ns and 7 ns, both
programs run to completion in program order) worker 0's max-update is
overwritten by worker 1's stale write: the run ends with
`DelayMin = 10 > DelayMax = 7`, a lost update and a combined state no
atomic-update execution can produce. -/
theorem c9_lost_update :
    (runSched raceStart raceSched).w0.prog = [] ∧
    (runSched raceStart raceSched).w1.prog = [] ∧
    (runSched raceStart raceSched).mem.DelayMin = 10 ∧
    (runSched raceStart raceSched).mem.DelayMax = 7 ∧
    (runSched raceStart raceSched).mem.DelayMax <
      (runSched raceStart raceSched).mem.DelayMin := by
  decide

/-- C10: `ParseArgs` accepts a concurrency of 0 (it validates only the
method and the host), and `Run` divides `requests / concurrency`
unguarded: at concurrency 0 the division panics (the embedded `Run`
returns `none`), and for every positive concurrency the run completes
(`Run` returns `some`). -/
theorem c10_division_unguarded :
    (∀ a : Args, a.method ∈ allowedMethods →
      parseRequestURIOk a.host = true → a.concurrency = 0 → parseOk a = true) ∧
    (∀ (b : bench) (tr : Nat → Nat → Attempt), b.concurrency = 0 →
      Run b tr = none) ∧
    (∀ (b : bench) (tr : Nat → Nat → Attempt), 0 < b.concurrency →
      (Run b tr).isSome = true) := by
  refine ⟨?_, ?_, ?_⟩
  · intro a h1 h2 _
    unfold parseOk ParseArgs
    simp [h1, h2]
  · intro b tr h
    unfold Run
    rw [if_pos h]
  · intro b tr h
    unfold Run
    rw [if_neg (Nat.pos_iff_ne_zero.mp h)]
    rfl

/-- An argument vector with concurrency 0 and otherwise valid fields. -/
def c10args : Args := { host := "http://example.com", concurrency := 0 }

/-- A zero-concurrency configuration as `ParseArgs` would produce it. -/
def c10bench : bench :=
  { requests := 1000, concurrency := 0, timeout := 100, host := "http://example.com" }

/-- A well-formed configuration with positive concurrency. -/
def c10ok : bench :=
  { requests := 4, concurrency := 2, timeout := 100, host := "http://example.com" }

/-- C10 (witness): concurrency 0 is accepted by parsing and makes `Run`
panic, while concurrency 2 runs to completion. -/
theorem c10_witness :
    parseOk c10args = true ∧ Run c10bench trOK = none ∧ (Run c10ok trOK).isSome = true :=
  ⟨c10_division_unguarded.1 c10args (by decide) (by decide) rfl,
    c10_division_unguarded.2.1 c10bench trOK rfl,
    c10_division_unguarded.2.2 c10ok trOK (by decide)⟩

end LoadBench

